import Mathlib

set_option maxHeartbeats 1000000

/-!
Verification development for the static-analysis core of the repository:
a shallow embedding of `tokenizer.js`, `complexity.js`, `dead-code.js`,
`dependency-mapper.js`, `style-checker.js` and `index.js`, followed by
theorems settling the specification claims about them.

Machine strings are modelled as `String`/`List Char`, JS numbers used as
indices/counters as `Nat` (or `Int` where the source lets them go
negative), and JS `null`/`undefined` as `Option`.  Loops are modelled as
fuel-indexed structural recursions; wherever the source loop advances its
index by exactly one per iteration the fuel is the exact remaining
iteration count, and for the tokenizer's main loop (which consumes at
least one character per iteration) a fuel-sufficiency lemma is proved.
-/

namespace CodeAnalysis

/-- A lexical token as produced by `tokenize` in tokenizer.js:
`{ type, value, line, col }`. -/
structure Token where
  type : String
  value : String
  line : Nat
  col : Nat
deriving Repr, DecidableEq

/-- tokenizer.js `KEYWORDS`. -/
def KEYWORDS : List String :=
  ["break", "case", "catch", "class", "const", "continue", "debugger",
   "default", "delete", "do", "else", "export", "extends", "false",
   "finally", "for", "from", "function", "get", "if", "import", "in",
   "instanceof", "let", "new", "null", "of", "return", "set", "static",
   "super", "switch", "this", "throw", "true", "try", "typeof", "undefined",
   "var", "void", "while", "with", "yield", "async", "await"]

/-- tokenizer.js `OPERATORS` (longest first, matched greedily in order). -/
def OPERATORS : List String :=
  [">>>=", "**=", "&&=", "||=", "??=", "...", "===", "!==", ">>>",
   "<<=", ">>=", "<=", ">=", "==", "!=", "&&", "||", "??", "++", "--",
   "+=", "-=", "*=", "/=", "%=", "**", "<<", ">>", "=>", "?.", "&=",
   "|=", "^=", "~", "!", "+", "-", "*", "/", "%", "&", "|", "^",
   "<", ">", "=", "?", ":"]

/-- tokenizer.js `PUNCTUATION`. -/
def PUNCTUATION : List Char :=
  ['{', '}', '(', ')', '[', ']', ';', ',', '.']

/-- The whitespace class `[ \t\r\f\v]` of tokenize's whitespace branch
(newline is handled by a separate branch). -/
def isWsNoNl (c : Char) : Bool :=
  c == ' ' || c == '\t' || c == '\r' || c == Char.ofNat 12 || c == Char.ofNat 11

/-- Every character the tokenizer discards between tokens. -/
def isWsAll (c : Char) : Bool := isWsNoNl c || c == '\n'

/-- `[a-zA-Z_$]`, the identifier-start class. -/
def identStart (c : Char) : Bool := c.isAlpha || c == '_' || c == '$'

/-- `[a-zA-Z0-9_$]`, the identifier-continuation class. -/
def identCont (c : Char) : Bool := c.isAlpha || c.isDigit || c == '_' || c == '$'

/-- `[0-9_]`, digits as scanned inside decimal literals. -/
def isDigitU (c : Char) : Bool := c.isDigit || c == '_'

/-- `[0-9a-fA-F_]`, hex-literal digits. -/
def isHexDigitU (c : Char) : Bool :=
  c.isDigit || decide ('a' ≤ c ∧ c ≤ 'f') || decide ('A' ≤ c ∧ c ≤ 'F') || c == '_'

/-- `[01_]`, binary-literal digits. -/
def isBinDigitU (c : Char) : Bool := c == '0' || c == '1' || c == '_'

/-- `[0-7_]`, octal-literal digits. -/
def isOctDigitU (c : Char) : Bool := decide ('0' ≤ c ∧ c ≤ '7') || c == '_'

/-- `[gimsuy]`, regex flags. -/
def isRegexFlag (c : Char) : Bool :=
  c == 'g' || c == 'i' || c == 'm' || c == 's' || c == 'u' || c == 'y'

/-- `isRegexContext` from tokenizer.js: whether a `/` at this position
starts a regex literal rather than division, judged from the last
significant (non-comment) token. -/
def isRegexContext : Option Token → Bool
  | none => true
  | some t =>
    if t.type == "number" || t.type == "string" || t.type == "template"
        || t.type == "regex" then false
    else if t.type == "identifier" then false
    else if t.type == "keyword" && (t.value == "this" || t.value == "true"
        || t.value == "false" || t.value == "null" || t.value == "undefined") then false
    else if t.type == "punctuation" && (t.value == ")" || t.value == "]"
        || t.value == "\x7d") then false
    else true

/-- Result of a literal sub-scanner: consumed characters, remaining input,
updated line and column. -/
structure ScanRes where
  co : List Char
  rest : List Char
  line : Nat
  col : Nat
deriving Repr

/-- Body of the multi-line-comment branch, entered after `/*` was consumed.
Mirrors the `while (!(source[i] === '*' && source[i+1] === '/'))` loop and
the trailing conditional consumption of `*/`. -/
def scanBlockComment : List Char → Nat → Nat → ScanRes
  | [], l, c => ⟨[], [], l, c⟩
  | '*' :: '/' :: rest, l, c => ⟨['*', '/'], rest, l, c + 2⟩
  | '\n' :: rest, l, _ =>
    let r := scanBlockComment rest (l + 1) 1
    ⟨'\n' :: r.co, r.rest, r.line, r.col⟩
  | ch :: rest, l, c =>
    let r := scanBlockComment rest l (c + 1)
    ⟨ch :: r.co, r.rest, r.line, r.col⟩

/-- Body of the template-literal branch, entered after the opening backtick
was consumed; `d` is the `${...}` nesting counter. -/
def scanTemplate : List Char → Nat → Nat → Nat → ScanRes
  | [], _, l, c => ⟨[], [], l, c⟩
  | ch :: rest, d, l, c =>
    if ch == '\\' then
      match rest with
      | [] => ⟨['\\'], [], l, c + 2⟩
      | n :: rest' =>
        let r := scanTemplate rest' d (if n == '\n' then l + 1 else l)
          (if n == '\n' then 1 else c + 2)
        ⟨'\\' :: n :: r.co, r.rest, r.line, r.col⟩
    else if ch == '$' then
      match rest with
      | b :: rest' =>
        if b == '{' then
          let r := scanTemplate rest' (d + 1) l (c + 2)
          ⟨'$' :: '{' :: r.co, r.rest, r.line, r.col⟩
        else
          let r := scanTemplate (b :: rest') d l (c + 1)
          ⟨'$' :: r.co, r.rest, r.line, r.col⟩
      | [] => ⟨['$'], [], l, c + 1⟩
    else if ch == '{' && decide (0 < d) then
      let r := scanTemplate rest (d + 1) l (c + 1)
      ⟨ch :: r.co, r.rest, r.line, r.col⟩
    else if ch == '}' && decide (0 < d) then
      let r := scanTemplate rest (d - 1) l (c + 1)
      ⟨ch :: r.co, r.rest, r.line, r.col⟩
    else if ch == '`' && d == 0 then ⟨[ch], rest, l, c + 1⟩
    else if ch == '\n' then
      let r := scanTemplate rest d (l + 1) 1
      ⟨ch :: r.co, r.rest, r.line, r.col⟩
    else
      let r := scanTemplate rest d l (c + 1)
      ⟨ch :: r.co, r.rest, r.line, r.col⟩

/-- Body of the string-literal branch for quote `q`, entered after the
opening quote was consumed.  An unterminated string ends (consuming the
newline) at end of line, or at end of input. -/
def scanString (q : Char) : List Char → Nat → Nat → ScanRes
  | [], l, c => ⟨[], [], l, c⟩
  | ch :: rest, l, c =>
    if ch == '\\' then
      match rest with
      | [] => ⟨['\\'], [], l, c + 2⟩
      | n :: rest' =>
        let r := scanString q rest' (if n == '\n' then l + 1 else l)
          (if n == '\n' then 1 else c + 2)
        ⟨'\\' :: n :: r.co, r.rest, r.line, r.col⟩
    else if ch == q then ⟨[ch], rest, l, c + 1⟩
    else if ch == '\n' then ⟨[ch], rest, l + 1, 1⟩
    else
      let r := scanString q rest l (c + 1)
      ⟨ch :: r.co, r.rest, r.line, r.col⟩

/-- Body of the regex-literal branch, entered after the opening `/` was
consumed; the flag tracks `inCharClass`.  The source only ever advances the
column here (a newline can be consumed only via an escape and the source
does not touch `line` in that case), so line/column are derived by the
caller from the consumed length.  An unterminated regex stops before a
newline without consuming it. -/
def scanRegexBody : List Char → Bool → List Char × List Char
  | [], _ => ([], [])
  | ch :: rest, icc =>
    if ch == '\\' then
      match rest with
      | [] => (['\\'], [])
      | n :: rest' =>
        let r := scanRegexBody rest' icc
        ('\\' :: n :: r.1, r.2)
    else if ch == '[' then
      let r := scanRegexBody rest true
      (ch :: r.1, r.2)
    else if ch == ']' then
      let r := scanRegexBody rest false
      (ch :: r.1, r.2)
    else if ch == '/' && !icc then ([ch], rest)
    else if ch == '\n' then ([], ch :: rest)
    else
      let r := scanRegexBody rest icc
      (ch :: r.1, r.2)

/-- The optional-fraction step of the decimal number scan
(`if (source[i] === '.') { ... digits ... }`). -/
def fracSpan : List Char → List Char × List Char
  | '.' :: fr => ('.' :: fr.takeWhile isDigitU, fr.dropWhile isDigitU)
  | r1 => ([], r1)

/-- The optional-exponent step of the decimal number scan (an `e`/`E`,
an optional sign, then plain digits — no underscores here). -/
def expoSpan : List Char → List Char × List Char
  | [] => ([], [])
  | e :: er =>
    if e == 'e' || e == 'E' then
      match er with
      | s :: sr =>
        if s == '+' || s == '-' then
          (e :: s :: sr.takeWhile Char.isDigit, sr.dropWhile Char.isDigit)
        else (e :: er.takeWhile Char.isDigit, er.dropWhile Char.isDigit)
      | [] => ([e], [])
    else ([], e :: er)

/-- The optional BigInt-suffix step of the decimal number scan. -/
def bigSpan : List Char → List Char × List Char
  | [] => ([], [])
  | n :: nr => if n == 'n' then ([n], nr) else ([], n :: nr)

/-- The decimal arm of the number-literal branch: integer part, optional
fraction, optional exponent, optional BigInt suffix `n`. -/
def scanDecimal (cs : List Char) : List Char × List Char :=
  let intPart := cs.takeWhile isDigitU
  let f := fracSpan (cs.dropWhile isDigitU)
  let e := expoSpan f.2
  let b := bigSpan e.2
  (intPart ++ f.1 ++ e.1 ++ b.1, b.2)

/-- The number-literal branch: `0x`/`0b`/`0o` prefixes take their own digit
class, everything else goes through `scanDecimal`. -/
def scanNumber (cs : List Char) : List Char × List Char :=
  match cs with
  | c0 :: p :: rest2 =>
    if c0 == '0' && (p == 'x' || p == 'X' || p == 'b' || p == 'B'
        || p == 'o' || p == 'O') then
      let pred := if p == 'x' || p == 'X' then isHexDigitU
                  else if p == 'b' || p == 'B' then isBinDigitU
                  else isOctDigitU
      (c0 :: p :: rest2.takeWhile pred, rest2.dropWhile pred)
    else scanDecimal cs
  | _ => scanDecimal cs

/-- The outcome of one iteration of tokenize's main loop: the token kind
(`none` for discarded whitespace), the characters consumed (which are
exactly the emitted token's text), the remaining input and the updated
line/column. -/
structure ScanStep where
  kind : Option String
  co : List Char
  rest : List Char
  line : Nat
  col : Nat

/-- One iteration of tokenize's main `while` loop, with the branches in
source order: whitespace, newline, line comment, block comment, template,
string, number, identifier/keyword, regex (guarded by `isRegexContext`),
operator (longest first), punctuation, unknown. -/
def scanToken : List Char → Nat → Nat → Option Token → ScanStep
  | [], l, c, _ => ⟨none, [], [], l, c⟩
  | ch :: rest, l, c, lastSig =>
    if isWsNoNl ch then
      ⟨none, (ch :: rest).takeWhile isWsNoNl, (ch :: rest).dropWhile isWsNoNl, l,
        c + ((ch :: rest).takeWhile isWsNoNl).length⟩
    else if ch == '\n' then ⟨none, ['\n'], rest, l + 1, 1⟩
    else if ch == '/' && rest.head? == some '/' then
      ⟨some "comment", (ch :: rest).takeWhile (· != '\n'), (ch :: rest).dropWhile (· != '\n'), l,
        c + ((ch :: rest).takeWhile (· != '\n')).length⟩
    else if ch == '/' && rest.head? == some '*' then
      let r := scanBlockComment rest.tail l (c + 2)
      ⟨some "comment", '/' :: '*' :: r.co, r.rest, r.line, r.col⟩
    else if ch == '`' then
      let r := scanTemplate rest 0 l (c + 1)
      ⟨some "template", ch :: r.co, r.rest, r.line, r.col⟩
    else if ch == '"' || ch == '\'' then
      let r := scanString ch rest l (c + 1)
      ⟨some "string", ch :: r.co, r.rest, r.line, r.col⟩
    else if ch.isDigit || (ch == '.' && (rest.head?.map Char.isDigit).getD false) then
      let r := scanNumber (ch :: rest)
      ⟨some "number", r.1, r.2, l, c + r.1.length⟩
    else if identStart ch then
      let co := (ch :: rest).takeWhile identCont
      let ty := if KEYWORDS.contains (String.mk co) then "keyword" else "identifier"
      ⟨some ty, co, (ch :: rest).dropWhile identCont, l, c + co.length⟩
    else if ch == '/' && isRegexContext lastSig then
      let r := scanRegexBody rest false
      let flags := r.2.takeWhile isRegexFlag
      let co := '/' :: r.1 ++ flags
      ⟨some "regex", co, r.2.dropWhile isRegexFlag, l, c + co.length⟩
    else
      match OPERATORS.find? (fun op => op.data.isPrefixOf (ch :: rest)) with
      | some op => ⟨some "operator", op.data, (ch :: rest).drop op.length, l, c + op.length⟩
      | none =>
        if PUNCTUATION.contains ch then ⟨some "punctuation", [ch], rest, l, c + 1⟩
        else ⟨some "unknown", [ch], rest, l, c + 1⟩

/-- The main loop of `tokenize`.  The fuel bounds the number of loop
iterations; `tokenize` passes the input length, which suffices because
each iteration consumes at least one character (`tokLoop_fuel`). -/
def tokLoop : Nat → List Char → Nat → Nat → Option Token → List Token
  | 0, _, _, _, _ => []
  | _ + 1, [], _, _, _ => []
  | fuel + 1, ch :: cs, l, c, lastSig =>
    let st := scanToken (ch :: cs) l c lastSig
    match st.kind with
    | none => tokLoop fuel st.rest st.line st.col lastSig
    | some k =>
      let t : Token := ⟨k, String.mk st.co, l, c⟩
      t :: tokLoop fuel st.rest st.line st.col
        (if k == "comment" then lastSig else some t)

/-- `tokenize` from tokenizer.js. -/
def tokenize (source : String) : List Token :=
  tokLoop source.data.length source.data 1 1 none

/-! ## Complexity analyzer (complexity.js) -/

/-- complexity.js `BRANCH_KEYWORDS`. -/
def BRANCH_KEYWORDS : List String := ["if", "else", "for", "while", "do", "case", "catch"]

/-- A discovered function site as built by `discoverFunctions`:
`{ name, line, tokenIdx, bodyOpenIdx }`. -/
structure FnRec where
  name : String
  line : Nat
  tokenIdx : Nat
  bodyOpenIdx : Nat
deriving Repr, DecidableEq

/-- `findMatchingParen` from complexity.js: from the `(` at `openIdx`,
the index of the syntactically matching `)`.  The source returns `-1`
when unmatched, modelled as `none`.  The depth is an `Int` because the
source never clamps it.  The fuel is the exact remaining index range. -/
def fmpGo (tokens : List Token) : Nat → Nat → Int → Option Nat
  | 0, _, _ => none
  | fuel + 1, i, depth =>
    match tokens[i]? with
    | none => none
    | some t =>
      let d1 := if t.type == "punctuation" && t.value == "(" then depth + 1 else depth
      if t.type == "punctuation" && t.value == ")" then
        if d1 - 1 == 0 then some i else fmpGo tokens fuel (i + 1) (d1 - 1)
      else fmpGo tokens fuel (i + 1) d1

/-- `findMatchingParen(tokens, openIdx)`. -/
def findMatchingParen (tokens : List Token) (openIdx : Nat) : Option Nat :=
  fmpGo tokens (tokens.length - openIdx) openIdx 0

/-- The `while (j < len && tokens[j].type === 'comment') j++` comment-skip
loops of complexity.js: first index at or after `j` holding a non-comment
token (or the length when none is left). -/
def skipCommentsFwd (tokens : List Token) : Nat → Nat → Nat
  | 0, j => j
  | fuel + 1, j =>
    match tokens[j]? with
    | some t => if t.type == "comment" then skipCommentsFwd tokens fuel (j + 1) else j
    | none => j

/-- The `while (j < len && !(tokens[j] is '('))` search in the `function`
arm of discoverFunctions. -/
def findOpenParen (tokens : List Token) : Nat → Nat → Nat
  | 0, j => j
  | fuel + 1, j =>
    match tokens[j]? with
    | some t =>
      if t.type == "punctuation" && t.value == "(" then j
      else findOpenParen tokens fuel (j + 1)
    | none => j

/-- The backward name scan for an arrow at token index `i`
(`for (let b = i - 1; b >= 0; b--)`); the argument is `b + 1` so the loop
is structural, and the source's two terminal cases (`)` and the final
catch-all `break`) both yield the placeholder. -/
def arrowNameGo (tokens : List Token) : Nat → String
  | 0 => "(arrow)"
  | b + 1 =>
    match tokens[b]? with
    | none => "(arrow)"
    | some bt =>
      if bt.type == "comment" then arrowNameGo tokens b
      else if bt.type == "identifier" then bt.value
      else if bt.type == "operator" && bt.value == "=" then arrowNameGo tokens b
      else "(arrow)"

/-- The main loop of `discoverFunctions`, one fuel per token index. -/
def dfGo (tokens : List Token) : Nat → Nat → List FnRec
  | 0, _ => []
  | fuel + 1, i =>
    match tokens[i]? with
    | none => []
    | some tok =>
      if tok.type == "comment" then dfGo tokens fuel (i + 1)
      else if tok.type == "keyword" && tok.value == "function" then
        let j1 := skipCommentsFwd tokens tokens.length (i + 1)
        let nameJ2 : String × Nat :=
          match tokens[j1]? with
          | some t =>
            if t.type == "identifier" then
              (t.value, skipCommentsFwd tokens tokens.length (j1 + 1))
            else ("(anonymous)", j1)
          | none => ("(anonymous)", j1)
        let j3 := findOpenParen tokens tokens.length nameJ2.2
        let recs : List FnRec :=
          if decide (tokens.length ≤ j3) then []
          else
            match findMatchingParen tokens j3 with
            | none => []
            | some cp =>
              let b1 := skipCommentsFwd tokens tokens.length (cp + 1)
              match tokens[b1]? with
              | some t =>
                if t.type == "punctuation" && t.value == "\x7b" then
                  [⟨nameJ2.1, tok.line, i, b1⟩]
                else []
              | none => []
        recs ++ dfGo tokens fuel (i + 1)
      else if tok.type == "operator" && tok.value == "=>" then
        let name := arrowNameGo tokens i
        let j := skipCommentsFwd tokens tokens.length (i + 1)
        let recs : List FnRec :=
          match tokens[j]? with
          | some t =>
            if t.type == "punctuation" && t.value == "\x7b" then [⟨name, tok.line, i, j⟩]
            else []
          | none => []
        recs ++ dfGo tokens fuel (i + 1)
      else dfGo tokens fuel (i + 1)

/-- `discoverFunctions` from complexity.js. -/
def discoverFunctions (tokens : List Token) : List FnRec :=
  dfGo tokens tokens.length 0

/-- The per-function search for the matching closing brace in
analyzeComplexity (`depth2` starts at 0 on the body-opening `{`). -/
def bodyCloseGo (tokens : List Token) : Nat → Nat → Int → Option Nat
  | 0, _, _ => none
  | fuel + 1, i, depth =>
    match tokens[i]? with
    | none => none
    | some t =>
      if t.type == "punctuation" && t.value == "\x7b" then
        bodyCloseGo tokens fuel (i + 1) (depth + 1)
      else if t.type == "punctuation" && t.value == "\x7d" then
        if depth - 1 == 0 then some i else bodyCloseGo tokens fuel (i + 1) (depth - 1)
      else bodyCloseGo tokens fuel (i + 1) depth

/-- The branch-counting walk of analyzeComplexity over
`(bodyOpenIdx, bodyCloseIdx)`; the fuel is the exact index range. -/
def walkGo (tokens : List Token) (close : Nat) : Nat → Nat → Nat → Nat
  | 0, _, acc => acc
  | fuel + 1, i, acc =>
    if decide (close ≤ i) then acc
    else
      match tokens[i]? with
      | none => acc
      | some tok =>
        if tok.type == "comment" then walkGo tokens close fuel (i + 1) acc
        else
          let acc1 :=
            if tok.type == "keyword" && BRANCH_KEYWORDS.contains tok.value then
              if tok.value == "else" then
                let j := skipCommentsFwd tokens tokens.length (i + 1)
                match tokens[j]? with
                | some t2 =>
                  if t2.type == "keyword" && t2.value == "if" then acc else acc + 1
                | none => acc + 1
              else acc + 1
            else acc
          let acc2 :=
            if tok.type == "operator" && (tok.value == "&&" || tok.value == "||"
                || tok.value == "??") then acc1 + 1
            else acc1
          let acc3 := if tok.type == "operator" && tok.value == "?" then acc2 + 1 else acc2
          walkGo tokens close fuel (i + 1) acc3

/-- One `{ name, line, complexity }` record of analyzeComplexity. -/
structure ComplexityResult where
  name : String
  line : Nat
  complexity : Nat
deriving Repr, DecidableEq

/-- `analyzeComplexity` from complexity.js.  (The source also precomputes
a `depthBefore` array and a per-function `bodyDepth`, but never uses them
after that, so they are not modelled.)  An unmatched body brace falls back
to `tokens.length - 1`, as in the source. -/
def analyzeComplexity (tokens : List Token) : List ComplexityResult :=
  (discoverFunctions tokens).map fun fn =>
    let bodyClose :=
      match bodyCloseGo tokens (tokens.length - fn.bodyOpenIdx) fn.bodyOpenIdx 0 with
      | some x => x
      | none => tokens.length - 1
    ⟨fn.name, fn.line,
      walkGo tokens bodyClose (bodyClose - (fn.bodyOpenIdx + 1)) (fn.bodyOpenIdx + 1) 1⟩

/-! ## Dead-code analyzer (dead-code.js) -/

/-- dead-code.js `JUMP_KEYWORDS`. -/
def JUMP_KEYWORDS : List String := ["return", "throw", "break", "continue"]

/-- dead-code.js `BRACELESS_CTRL`. -/
def BRACELESS_CTRL : List String := ["if", "else", "for", "while", "do"]

/-- A `{ line, col, message, kind, snippet }` issue of detectDeadCode. -/
structure DeadIssue where
  line : Nat
  col : Nat
  message : String
  kind : String
  snippet : String
deriving Repr, DecidableEq

/-- A string wrapped in single quotes, as interpolated into the issue
message. -/
def sq (s : String) : String := String.mk ('\'' :: s.data ++ ['\''])

/-- Significant tokens: everything except comments. -/
def sigTokens (tokens : List Token) : List Token :=
  tokens.filter (fun t => t.type != "comment")

/-- The brace depth before each significant token, incremented on `{`,
decremented on `}` and floored at zero (the `Nat` subtraction is exactly
the source's clamp). -/
def depthBeforeList : List Token → Nat → List Nat
  | [], _ => []
  | t :: ts, d =>
    d :: depthBeforeList ts
      (if t.type == "punctuation" && t.value == "\x7b" then d + 1
       else if t.type == "punctuation" && t.value == "\x7d" then d - 1
       else d)

/-- The `let k = j - 1; while (k >= 0 && comment) k--` backward comment
skip inside isInsideBracelessControl; the argument is `k + 1`. -/
def skipCommentsBack (sig : List Token) : Nat → Option Token
  | 0 => none
  | k + 1 =>
    match sig[k]? with
    | none => none
    | some t => if t.type == "comment" then skipCommentsBack sig k else some t

/-- The inner backward paren-matching loop of isInsideBracelessControl,
entered at the `)` (the argument is `j + 1`): find the matching `(` and
test whether the token before it (skipping comments) is a braceless
control keyword.  Both the source's post-loop `return false` and the
`break` out of the loop are the `false` results here. -/
def parenBackGo (sig : List Token) : Nat → Int → Bool
  | 0, _ => false
  | j + 1, depth =>
    match sig[j]? with
    | none => false
    | some t =>
      let d1 := if t.type == "punctuation" && t.value == ")" then depth + 1 else depth
      if t.type == "punctuation" && t.value == "(" then
        if d1 - 1 == 0 then
          match skipCommentsBack sig j with
          | some kt => kt.type == "keyword" && BRACELESS_CTRL.contains kt.value
          | none => false
        else parenBackGo sig j (d1 - 1)
      else parenBackGo sig j d1

/-- The main backward loop of isInsideBracelessControl (the argument is
`b + 1`, starting from the jump index). -/
def iibcGo (sig : List Token) (depthB : List Nat) (jumpDepth : Nat) : Nat → Bool
  | 0 => false
  | b + 1 =>
    match sig[b]? with
    | none => false
    | some tok =>
      let d := depthB.getD b 0
      if decide (jumpDepth < d) then iibcGo sig depthB jumpDepth b
      else if decide (d < jumpDepth) then false
      else if tok.type == "punctuation" && tok.value == ")" then parenBackGo sig (b + 1) 0
      else if tok.type == "punctuation" && tok.value == "\x7b" then false
      else if tok.type == "punctuation" && tok.value == ";" then false
      else if tok.type == "keyword" && tok.value == "else" then true
      else iibcGo sig depthB jumpDepth b

/-- `isInsideBracelessControl(sig, jumpIdx, depthBefore)` from dead-code.js. -/
def isInsideBracelessControl (sig : List Token) (depthB : List Nat) (jumpIdx : Nat) : Bool :=
  iibcGo sig depthB (depthB.getD jumpIdx 0) jumpIdx

/-- The forward scan past a jump's own statement: a nest counter over
`{ ( [` and `} ) ]`, a `;` at nest zero ends the statement (consumed),
an unmatched closer ends it (not consumed).  Returns the index of the
first token after the statement. -/
def stmtEndGo (sig : List Token) : Nat → Nat → Nat → Nat
  | 0, j, _ => j
  | fuel + 1, j, nest =>
    match sig[j]? with
    | none => j
    | some t =>
      if t.type == "punctuation" && (t.value == "\x7b" || t.value == "("
          || t.value == "[") then
        stmtEndGo sig fuel (j + 1) (nest + 1)
      else if t.type == "punctuation" && (t.value == "\x7d" || t.value == ")"
          || t.value == "]") then
        if decide (0 < nest) then stmtEndGo sig fuel (j + 1) (nest - 1) else j
      else if t.type == "punctuation" && t.value == ";" && nest == 0 then j + 1
      else stmtEndGo sig fuel (j + 1) nest

/-- `stmtEnd sig i` is the source's `j` after the advance-past-statement
loop for the jump at index `i`. -/
def stmtEnd (sig : List Token) (i : Nat) : Nat := stmtEndGo sig sig.length (i + 1) 0

/-- The issue-emission tail of one detectDeadCode iteration for the jump
`tok` at index `i`: inspect the first token after the jump's statement and
build the issue when it is unreachable (same block, same depth). -/
def emitAt (sig : List Token) (depthB : List Nat) (lines : List String)
    (i : Nat) (tok : Token) : Option DeadIssue :=
  let j := stmtEnd sig i
  match sig[j]? with
  | none => none
  | some nextTok =>
    if nextTok.type == "punctuation" && nextTok.value == "\x7d" then none
    else if !(depthB.getD j 0 == depthB.getD i 0) then none
    else
      some ⟨nextTok.line, nextTok.col,
        "Unreachable code after " ++ sq tok.value ++ " (at line "
          ++ toString tok.line ++ ")",
        "dead-code",
        if nextTok.line == 0 then ""
        else (lines.getD (nextTok.line - 1) "").trim⟩

/-- The main loop of detectDeadCode.  After an issue is pushed the source
sets `i = j - 1` and the `for` increment makes the next index `j`, i.e.
`stmtEnd sig i`.  Since `i` grows by at least one per iteration, the
`sig.length` fuel passed by `detectDeadCode` is never exhausted before
the index runs off the array. -/
def ddGo (sig : List Token) (depthB : List Nat) (lines : List String) :
    Nat → Nat → List DeadIssue
  | 0, _ => []
  | fuel + 1, i =>
    match sig[i]? with
    | none => []
    | some tok =>
      if !(tok.type == "keyword" && JUMP_KEYWORDS.contains tok.value) then
        ddGo sig depthB lines fuel (i + 1)
      else if isInsideBracelessControl sig depthB i then
        ddGo sig depthB lines fuel (i + 1)
      else
        match emitAt sig depthB lines i tok with
        | some iss => iss :: ddGo sig depthB lines fuel (stmtEnd sig i)
        | none => ddGo sig depthB lines fuel (i + 1)

/-- `detectDeadCode(tokens, lines)` from dead-code.js. -/
def detectDeadCode (tokens : List Token) (lines : List String) : List DeadIssue :=
  let sig := sigTokens tokens
  ddGo sig (depthBeforeList sig 0) lines sig.length 0

/-! ## Dependency mapper (dependency-mapper.js) -/

/-- A `{ source, kind, line }` import record of parseImports. -/
structure ImportRecord where
  source : String
  kind : String
  line : Nat
deriving Repr, DecidableEq

/-- The `{ file, imports }` result of parseImports. -/
structure ImportsResult where
  file : String
  imports : List ImportRecord
deriving Repr, DecidableEq

/-- One of the three quote characters stripped by `stripQuotes`. -/
def isQuoteCh (c : Char) : Bool :=
  c == '\'' || c == '"' || c == '`'

/-- `stripQuotes`: drop one leading and one trailing quote character, as
the anchored global regex replace does. -/
def stripQuotes (s : String) : String :=
  let l1 := match s.data with
    | c :: rest => if isQuoteCh c then rest else c :: rest
    | [] => []
  let l2 := match l1.getLast? with
    | some c => if isQuoteCh c then l1.dropLast else l1
    | none => l1
  String.mk l2

/-- The `from`-search loop shared by the static-import and export arms of
parseImports; it stops at `from`, at `;`, or (static arm only) at a later
`import`, returning the stopping index (the length when it ran off). -/
def findFromIdx (sig : List Token) (stopAtImport : Bool) (i0 : Nat) :
    Nat → Nat → Nat
  | 0, j => j
  | fuel + 1, j =>
    match sig[j]? with
    | none => j
    | some t =>
      if t.type == "keyword" && t.value == "from" then j
      else if t.type == "punctuation" && t.value == ";" then j
      else if stopAtImport && t.type == "keyword" && t.value == "import"
          && !(j == i0) then j
      else findFromIdx sig stopAtImport i0 fuel (j + 1)

/-- Shared tail of the static-import and export arms: if the stop token is
`from` and is followed by a string, produce one record of the given kind. -/
def fromRecord (sig : List Token) (j : Nat) (kind : String) (line : Nat) :
    List ImportRecord :=
  match sig[j]? with
  | some tj =>
    if tj.type == "keyword" && tj.value == "from" then
      match sig[(j + 1)]? with
      | some src =>
        if src.type == "string" then [⟨stripQuotes src.value, kind, line⟩] else []
      | none => []
    else []
  | none => []

/-- The main loop of parseImports over the significant tokens. -/
def piGo (sig : List Token) : Nat → Nat → List ImportRecord
  | 0, _ => []
  | fuel + 1, i =>
    match sig[i]? with
    | none => []
    | some tok =>
      if tok.type == "keyword" && tok.value == "import" then
        match sig[(i + 1)]? with
        | none => piGo sig fuel (i + 1)
        | some next =>
          if next.type == "punctuation" && next.value == "(" then
            let recs : List ImportRecord :=
              match sig[(i + 2)]? with
              | some src =>
                if src.type == "string" || src.type == "template" then
                  [⟨stripQuotes src.value, "dynamic-import", tok.line⟩]
                else []
              | none => []
            recs ++ piGo sig fuel (i + 1)
          else
            let j := findFromIdx sig true i sig.length (i + 1)
            fromRecord sig j "import" tok.line ++ piGo sig fuel (i + 1)
      else if tok.type == "keyword" && tok.value == "export" then
        let j := findFromIdx sig false i sig.length (i + 1)
        fromRecord sig j "export-from" tok.line ++ piGo sig fuel (i + 1)
      else if tok.type == "identifier" && tok.value == "require" then
        let recs : List ImportRecord :=
          match sig[(i + 1)]?, sig[(i + 2)]? with
          | some paren, some src =>
            if paren.type == "punctuation" && paren.value == "("
                && src.type == "string" then
              [⟨stripQuotes src.value, "require", tok.line⟩]
            else []
          | _, _ => []
        recs ++ piGo sig fuel (i + 1)
      else piGo sig fuel (i + 1)

/-- `parseImports(tokens, filePath)` from dependency-mapper.js. -/
def parseImports (tokens : List Token) (filePath : String) : ImportsResult :=
  let sig := tokens.filter (fun t => t.type != "comment")
  ⟨filePath, piGo sig sig.length 0⟩

/-- The dependency graph: a `Map` from file to a `Set` of files, both with
insertion order, modelled as association lists without duplicates. -/
abbrev Graph := List (String × List String)

/-- `graph.has(k)`. -/
def mapHasKey (g : Graph) (k : String) : Bool := g.any (fun p => p.1 == k)

/-- `graph.get(k) || new Set()`. -/
def mapGetD (g : Graph) (k : String) : List String :=
  match g.find? (fun p => p.1 == k) with
  | some p => p.2
  | none => []

/-- `set.add(x)` (no-op when present, appends otherwise). -/
def setAdd (s : List String) (x : String) : List String :=
  if s.contains x then s else s ++ [x]

/-- Add `x` to the set stored under the (present) key `k`. -/
def mapAddToSet (g : Graph) (k x : String) : Graph :=
  g.map (fun p => if p.1 == k then (p.1, setAdd p.2 x) else p)

/-- `if (!graph.has(k)) graph.set(k, new Set())`. -/
def mapEnsure (g : Graph) (k : String) : Graph :=
  if mapHasKey g k then g else g ++ [(k, [])]

/-- `resolveImport(fromFile, specifier)` from dependency-mapper.js. -/
def resolveImport (fromFile specifier : String) : String :=
  if !(specifier.startsWith ".") then specifier
  else
    let parts := (fromFile.splitOn "/").dropLast
    let specParts := specifier.splitOn "/"
    let resolvedParts := specParts.foldl (fun acc part =>
      if part == ".." then acc.dropLast
      else if part == "." then acc
      else acc ++ [part]) parts
    let resolved := String.intercalate "/" resolvedParts
    if !(resolved.contains '.') then resolved ++ ".js" else resolved

/-- `buildGraph(fileData)` from dependency-mapper.js. -/
def buildGraph (fileData : List ImportsResult) : Graph :=
  fileData.foldl (fun g fd =>
    let g1 := mapEnsure g fd.file
    fd.imports.foldl (fun g2 imp =>
      let resolved := resolveImport fd.file imp.source
      mapEnsure (mapAddToSet g2 fd.file resolved) resolved) g1) []

/-- The mutable state of detectCircularDeps' DFS: the cycles found so far,
the `visited` set and the `inStack` set (both in insertion order). -/
structure DfsSt where
  cycles : List (List String)
  visited : List String
  inStack : List String
deriving Repr, DecidableEq

/-- One `dfs(node, path)` call of detectCircularDeps, fuel-indexed so the
definition is structural; `detectCircularDeps_total` (claim C9) shows the
fuel passed by the driver is never exhausted.  The sequential neighbour
recursion is the fold over the neighbour set.  (In the cycle case the
source uses `path.indexOf(node)`, which is always a hit because `node` is
on the exploration stack and the stack holds exactly the path's nodes;
`List.indexOf` agrees there.) -/
def dfsNode (g : Graph) : Nat → String → List String → DfsSt → Option DfsSt
  | 0, _, _, _ => none
  | fuel + 1, node, path, st =>
    if st.inStack.contains node then
      let cycleStart := path.indexOf node
      some { st with cycles := st.cycles ++ [path.drop cycleStart ++ [node]] }
    else if st.visited.contains node then some st
    else
      let st1 : DfsSt := ⟨st.cycles, st.visited ++ [node], st.inStack ++ [node]⟩
      match (mapGetD g node).foldl
          (fun ost n => ost.bind (fun stx => dfsNode g fuel n (path ++ [node]) stx))
          (some st1) with
      | none => none
      | some st2 => some ⟨st2.cycles, st2.visited, st2.inStack.erase node⟩

/-- Fuel that `dfs_fuel_sufficient` proves is enough for any `dfs` call on
`g`: one more than the number of node occurrences in the graph. -/
def dfsFuel (g : Graph) : Nat := (g.map (fun p => p.2.length + 1)).sum + 1

/-- The `for (const node of graph.keys())` driver loop. -/
def dccGo (g : Graph) : List String → DfsSt → Option DfsSt
  | [], st => some st
  | k :: ks, st =>
    if st.visited.contains k then dccGo g ks st
    else
      match dfsNode g (dfsFuel g) k [] st with
      | none => none
      | some st' => dccGo g ks st'

/-- `detectCircularDeps(graph)`, with the fuel exhaustion surfaced as
`none` (shown unreachable in claim C9). -/
def detectCircularDepsOpt (g : Graph) : Option (List (List String)) :=
  match dccGo g (g.map (·.1)) ⟨[], [], []⟩ with
  | some st => some st.cycles
  | none => none

/-- `detectCircularDeps(graph)` from dependency-mapper.js. -/
def detectCircularDeps (g : Graph) : List (List String) :=
  (detectCircularDepsOpt g).getD []

/-! ## Style checker (style-checker.js) -/

/-- The rule configuration; `checkStyle` receives the merge
`{...DEFAULT_RULES, ...rules}`, modelled as the already-merged record. -/
structure StyleRules where
  maxLineLength : Nat
  noVar : Bool
  noConsole : Bool
  camelCase : Bool
  noTrailingWhitespace : Bool
  noDebugger : Bool
deriving Repr, DecidableEq

/-- style-checker.js `DEFAULT_RULES`. -/
def DEFAULT_RULES : StyleRules := ⟨120, true, true, true, true, true⟩

/-- style-checker.js `CAMEL_WHITELIST`. -/
def CAMEL_WHITELIST : List String :=
  ["URL", "ID", "OK", "API", "HTTP", "HTTPS", "JSON", "HTML", "CSS",
   "DOM", "RPC", "SQL", "TCP", "UDP", "TTL", "UUID", "XML"]

/-- `[A-Z]`. -/
def isUpperCh (c : Char) : Bool := decide ('A' ≤ c ∧ c ≤ 'Z')

/-- `[a-z]`. -/
def isLowerCh (c : Char) : Bool := decide ('a' ≤ c ∧ c ≤ 'z')

/-- `[a-zA-Z0-9]`. -/
def isAlnumCh (c : Char) : Bool := c.isAlpha || c.isDigit

/-- `/^[A-Z][A-Z0-9_]*$/`. -/
def matchScreaming : List Char → Bool
  | c :: rest => isUpperCh c && rest.all (fun d => isUpperCh d || d.isDigit || d == '_')
  | [] => false

/-- `/^[A-Z][a-zA-Z0-9]*$/`. -/
def matchPascal : List Char → Bool
  | c :: rest => isUpperCh c && rest.all isAlnumCh
  | [] => false

/-- `/^_?[a-z][a-zA-Z0-9]*$/`. -/
def matchCamel : List Char → Bool
  | '_' :: c :: rest => isLowerCh c && rest.all isAlnumCh
  | c :: rest => isLowerCh c && rest.all isAlnumCh
  | [] => false

/-- `/^_[a-z][a-zA-Z0-9]*$/`. -/
def matchPrivate : List Char → Bool
  | '_' :: c :: rest => isLowerCh c && rest.all isAlnumCh
  | _ => false

/-- `/^__?[a-zA-Z][a-zA-Z0-9]*$/`. -/
def matchDunder : List Char → Bool
  | '_' :: '_' :: c :: rest => c.isAlpha && rest.all isAlnumCh
  | '_' :: c :: rest => c.isAlpha && rest.all isAlnumCh
  | _ => false

/-- `/^\$[a-zA-Z0-9_]*$/`. -/
def matchDollar : List Char → Bool
  | '$' :: rest => rest.all (fun d => isAlnumCh d || d == '_')
  | _ => false

/-- `isValidIdentifier` from style-checker.js: the whitelist, single
characters, and the naming-convention patterns, tried in source order. -/
def isValidIdentifier (name : String) : Bool :=
  if CAMEL_WHITELIST.contains name then true
  else if name.length == 1 then true
  else if matchScreaming name.data then true
  else if matchPascal name.data then true
  else if matchCamel name.data then true
  else if matchPrivate name.data then true
  else if matchDunder name.data then true
  else if matchDollar name.data then true
  else false

/-- A `{ line, col, rule, message }` style issue. -/
structure StyleIssue where
  line : Nat
  col : Nat
  rule : String
  message : String
deriving Repr, DecidableEq

/-- The per-line checks of checkStyle (max-line-length, then
no-trailing-whitespace, in source order). -/
def lineIssues (cfg : StyleRules) (lines : List String) : List StyleIssue :=
  lines.enum.flatMap fun p =>
    let lineNum := p.1 + 1
    let ln := p.2
    let lenIss : List StyleIssue :=
      if cfg.maxLineLength != 0 && decide (cfg.maxLineLength < ln.length) then
        [⟨lineNum, cfg.maxLineLength + 1, "max-line-length",
          "Line is " ++ toString ln.length ++ " characters (max "
            ++ toString cfg.maxLineLength ++ ")"⟩]
      else []
    let trailRun := ln.data.reverse.takeWhile (fun c => c == ' ' || c == '\t')
    let trailIss : List StyleIssue :=
      if cfg.noTrailingWhitespace && !trailRun.isEmpty then
        [⟨lineNum, ln.length - trailRun.length + 1, "no-trailing-whitespace",
          "Trailing whitespace"⟩]
      else []
    lenIss ++ trailIss

/-- `findPrevSignificant(tokens, idx, n)` from style-checker.js (the first
argument of the recursion is the index plus one, the second the count so
far). -/
def fpsGo (tokens : List Token) (n : Nat) : Nat → Nat → Option Token
  | 0, _ => none
  | i + 1, count =>
    match tokens[i]? with
    | none => none
    | some t =>
      if t.type == "comment" then fpsGo tokens n i count
      else if count + 1 == n then some t
      else fpsGo tokens n i (count + 1)

/-- `findPrevSignificant(tokens, idx, n)`. -/
def findPrevSignificant (tokens : List Token) (idx n : Nat) : Option Token :=
  fpsGo tokens n idx 0

/-- The token-level loop of checkStyle, one fuel per index; the pushes for
one token are in source order: no-var, no-debugger, no-console,
camel-case. -/
def styleTokGo (cfg : StyleRules) (tokens : List Token) : Nat → Nat → List StyleIssue
  | 0, _ => []
  | fuel + 1, i =>
    match tokens[i]? with
    | none => []
    | some tok =>
      if tok.type == "comment" then styleTokGo cfg tokens fuel (i + 1)
      else
        let varIss : List StyleIssue :=
          if cfg.noVar && tok.type == "keyword" && tok.value == "var" then
            [⟨tok.line, tok.col, "no-var",
              "Use " ++ sq "let" ++ " or " ++ sq "const" ++ " instead of " ++ sq "var"⟩]
          else []
        let dbgIss : List StyleIssue :=
          if cfg.noDebugger && tok.type == "keyword" && tok.value == "debugger" then
            [⟨tok.line, tok.col, "no-debugger",
              sq "debugger" ++ " statement should not be in production code"⟩]
          else []
        let conIss : List StyleIssue :=
          if cfg.noConsole && tok.type == "identifier" && tok.value == "console" then
            match tokens[(i + 1)]? with
            | some next =>
              if next.type == "punctuation" && next.value == "." then
                let methodName := match tokens[(i + 2)]? with
                  | some m => m.value
                  | none => ""
                [⟨tok.line, tok.col, "no-console",
                  "console." ++ methodName ++ " should not be used in production code"⟩]
              else []
            | none => []
          else []
        let camIss : List StyleIssue :=
          if cfg.camelCase && tok.type == "identifier" then
            let prevDot :=
              match (if decide (0 < i) then tokens[(i - 1)]? else none) with
              | some prev => prev.type == "punctuation" && prev.value == "."
              | none => false
            if prevDot then []
            else
              let skipKw :=
                match findPrevSignificant tokens i 1 with
                | some pk => pk.type == "keyword"
                    && (pk.value == "from" || pk.value == "import")
                | none => false
              if skipKw then []
              else if !isValidIdentifier tok.value then
                [⟨tok.line, tok.col, "camel-case",
                  "Identifier " ++ sq tok.value
                    ++ " does not follow naming conventions (camelCase/PascalCase/SCREAMING_SNAKE)"⟩]
              else []
          else []
        varIss ++ dbgIss ++ conIss ++ camIss ++ styleTokGo cfg tokens fuel (i + 1)

/-- The stable sort comparator `a.line !== b.line ? a.line - b.line :
a.col - b.col` as a total Bool order for `mergeSort`. -/
def styleLe (a b : StyleIssue) : Bool :=
  decide (a.line < b.line) || (a.line == b.line && decide (a.col ≤ b.col))

/-- `checkStyle(source, tokens, rules)` from style-checker.js. -/
def checkStyle (source : String) (tokens : List Token) (rules : StyleRules) :
    List StyleIssue :=
  let lines := source.splitOn "\n"
  (lineIssues rules lines ++ styleTokGo rules tokens tokens.length 0).mergeSort styleLe

/-! ## Driver (index.js) -/

/-- A `{ file, tokens }` pair of `options.otherFiles`. -/
structure FileTokens where
  file : String
  tokens : List Token
deriving Repr, DecidableEq

/-- The options object destructured at the top of `analyze`, with the same
defaults.  The JS `rules` value may be a partial override of
`DEFAULT_RULES`; the field here is the merged record. -/
structure AnalyzeOptions where
  file : String := "<source>"
  rules : StyleRules := DEFAULT_RULES
  skipComplexity : Bool := false
  skipDeadCode : Bool := false
  skipStyle : Bool := false
  skipDependencies : Bool := false
  otherFiles : List FileTokens := []
deriving Repr

/-- The `dependencies` record of an `analyze` result. -/
structure DepsResult where
  graph : Graph
  cycles : List (List String)
  allImports : List ImportsResult
  imports : List ImportRecord
deriving Repr, DecidableEq

/-- The `summary` record of an `analyze` result.  `avgComplexity` is the
exact rational mean; the source additionally rounds it to two decimals
(`+(x).toFixed(2)`), a float-formatting step no claim depends on. -/
structure Summary where
  totalTokens : Nat
  functions : Nat
  avgComplexity : Rat
  maxComplexity : Nat
  deadCodeIssues : Nat
  styleIssues : Nat
  circularDeps : Nat
  totalIssues : Nat
deriving Repr, DecidableEq

/-- The result record of `analyze`. -/
structure AnalyzeResult where
  file : String
  tokens : List Token
  complexity : List ComplexityResult
  deadCode : List DeadIssue
  style : List StyleIssue
  dependencies : Option DepsResult
  summary : Summary
deriving Repr

/-- `analyze(source, options)` from index.js.  (The JS throws a
`TypeError` when `source` is not a string; here the type of `source`
enforces that contract.) -/
def analyze (source : String) (options : AnalyzeOptions) : AnalyzeResult :=
  let file := options.file
  let lines := source.splitOn "\n"
  let tokens := tokenize source
  let complexity := if options.skipComplexity then [] else analyzeComplexity tokens
  let deadCode := if options.skipDeadCode then [] else detectDeadCode tokens lines
  let style := if options.skipStyle then [] else checkStyle source tokens options.rules
  let dependencies : Option DepsResult :=
    if options.skipDependencies then none
    else
      let allFiles := FileTokens.mk file tokens :: options.otherFiles
      let allData := allFiles.map (fun f => parseImports f.tokens f.file)
      let graph := buildGraph allData
      let cycles := detectCircularDeps graph
      let myImports := (allData.find? (fun d => d.file == file)).getD ⟨file, []⟩
      some ⟨graph, cycles, [myImports], myImports.imports⟩
  let cycleCount := match dependencies with
    | some d => d.cycles.length
    | none => 0
  let summary : Summary :=
    ⟨tokens.length,
     complexity.length,
     (if 0 < complexity.length then
        ((complexity.map (·.complexity)).sum : Rat) / (complexity.length : Rat)
      else 0),
     (if 0 < complexity.length then
        (complexity.map (·.complexity)).foldl Nat.max 0
      else 0),
     deadCode.length,
     style.length,
     cycleCount,
     deadCode.length + style.length + cycleCount⟩
  ⟨file, tokens, complexity, deadCode, style, dependencies, summary⟩

/-- The jump-keyword guard of detectDeadCode's main loop. -/
def isJumpTok (t : Token) : Bool := t.type == "keyword" && JUMP_KEYWORDS.contains t.value

/-- How many jump-keyword tokens sit at or after index `i`. -/
def jumpCountFrom (sig : List Token) (i : Nat) : Nat :=
  ((sig.drop i).filter isJumpTok).length

/-- The regex-context condition exactly as claim C2 words it: last
significant token absent, an operator, an opening bracket/brace/paren, or
a keyword other than `this`, `true`, `false`, `null`, `undefined`. -/
def claimC2RegexCond : Option Token → Bool
  | none => true
  | some t =>
    t.type == "operator"
    || (t.type == "punctuation" && (t.value == "(" || t.value == "[" || t.value == "\x7b"))
    || (t.type == "keyword" && !(t.value == "this" || t.value == "true"
        || t.value == "false" || t.value == "null" || t.value == "undefined"))

/-- The amended wording of claim C2, restating the source's blacklist: a
`/` starts a regex unless the last significant token is a number, string,
template or regex literal, an identifier, one of the value keywords
`this`, `true`, `false`, `null`, `undefined`, or a closing `)`, `]`,
`\x7d`. -/
def amendedC2RegexCond : Option Token → Bool
  | none => true
  | some t =>
    !(t.type == "number" || t.type == "string" || t.type == "template"
      || t.type == "regex" || t.type == "identifier"
      || (t.type == "keyword" && (t.value == "this" || t.value == "true"
          || t.value == "false" || t.value == "null" || t.value == "undefined"))
      || (t.type == "punctuation" && (t.value == ")" || t.value == "]"
          || t.value == "\x7d")))

/-! ## Tokenizer lemmas: consumed spans, progress, fuel sufficiency -/

theorem scanBlockComment_append (cs : List Char) (l c : Nat) :
    (scanBlockComment cs l c).co ++ (scanBlockComment cs l c).rest = cs := by
  induction cs, l, c using scanBlockComment.induct <;> simp_all [scanBlockComment]

theorem scanTemplate_append (cs : List Char) (d l c : Nat) :
    (scanTemplate cs d l c).co ++ (scanTemplate cs d l c).rest = cs := by
  induction cs, d, l, c using scanTemplate.induct <;>
    rw [scanTemplate.eq_def] <;> (repeat' split) <;>
    first
    | (simp_all; done)
    | aesop

theorem scanString_append (q : Char) (cs : List Char) (l c : Nat) :
    (scanString q cs l c).co ++ (scanString q cs l c).rest = cs := by
  induction cs, l, c using scanString.induct q <;>
    rw [scanString.eq_def] <;> (repeat' split) <;>
    first
    | (simp_all; done)
    | aesop

theorem scanRegexBody_append (cs : List Char) (icc : Bool) :
    (scanRegexBody cs icc).1 ++ (scanRegexBody cs icc).2 = cs := by
  induction cs, icc using scanRegexBody.induct <;>
    rw [scanRegexBody.eq_def] <;> (repeat' split) <;>
    first
    | (simp_all; done)
    | aesop

theorem fracSpan_append (r : List Char) : (fracSpan r).1 ++ (fracSpan r).2 = r := by
  unfold fracSpan
  split <;> simp [List.takeWhile_append_dropWhile]

theorem expoSpan_append (r : List Char) : (expoSpan r).1 ++ (expoSpan r).2 = r := by
  unfold expoSpan
  repeat' split <;> (try rfl) <;> (try simp_all [List.takeWhile_append_dropWhile])

theorem bigSpan_append (r : List Char) : (bigSpan r).1 ++ (bigSpan r).2 = r := by
  unfold bigSpan
  repeat' split <;> (try rfl) <;> (try simp_all)

theorem scanDecimal_append (cs : List Char) :
    (scanDecimal cs).1 ++ (scanDecimal cs).2 = cs := by
  simp only [scanDecimal, List.append_assoc]
  rw [bigSpan_append, expoSpan_append, fracSpan_append, List.takeWhile_append_dropWhile]

theorem scanNumber_append (cs : List Char) :
    (scanNumber cs).1 ++ (scanNumber cs).2 = cs := by
  unfold scanNumber
  repeat' split <;> simp_all [scanDecimal_append, List.takeWhile_append_dropWhile]

theorem scanDecimal_ne_nil (ch : Char) (rest : List Char)
    (h : ch.isDigit = true ∨ ch = '.') : (scanDecimal (ch :: rest)).1 ≠ [] := by
  rcases h with h | h
  · have hu : isDigitU ch = true := by simp [isDigitU, h]
    simp [scanDecimal, List.takeWhile_cons, hu]
  · subst h
    have hu : isDigitU '.' = false := by decide
    simp [scanDecimal, List.takeWhile_cons, List.dropWhile_cons, hu, fracSpan]

theorem scanNumber_ne_nil (ch : Char) (rest : List Char)
    (h : ch.isDigit = true ∨ ch = '.') : (scanNumber (ch :: rest)).1 ≠ [] := by
  have hd := scanDecimal_ne_nil ch rest h
  unfold scanNumber
  repeat' split <;> simp_all

theorem identStart_cont (c : Char) (h : identStart c = true) : identCont c = true := by
  simp only [identStart, identCont, Bool.or_eq_true] at *
  tauto

theorem OPERATORS_data_ne_nil : ∀ op ∈ OPERATORS, op.data ≠ [] := by decide

/-- The three facts claims C8 and C9 need about one tokenizer step: the
consumed characters followed by the rest reassemble the input, at least
one character is consumed, and a step that emits no token consumed only
whitespace characters. -/
theorem scanToken_spec (cs : List Char) (l c : Nat) (ls : Option Token) (h : cs ≠ []) :
    (scanToken cs l c ls).co ++ (scanToken cs l c ls).rest = cs ∧
    (scanToken cs l c ls).co ≠ [] ∧
    ((scanToken cs l c ls).kind = none → ∀ a ∈ (scanToken cs l c ls).co, isWsAll a = true) := by
  match cs with
  | [] => exact absurd rfl h
  | ch :: rest =>
    simp only [scanToken]
    by_cases h1 : isWsNoNl ch = true
    · rw [if_pos h1]
      refine ⟨List.takeWhile_append_dropWhile _ _, by simp [List.takeWhile_cons, h1], ?_⟩
      intro _ a ha
      have := List.mem_takeWhile_imp (p := isWsNoNl) (by simpa using ha)
      simp [isWsAll, this]
    rw [if_neg h1]
    by_cases h2 : (ch == '\n') = true
    · rw [if_pos h2]
      have hch : ch = '\n' := by simpa using h2
      subst hch
      refine ⟨rfl, by simp, ?_⟩
      intro _ a ha
      simp only [List.mem_singleton] at ha
      simp [ha, isWsAll]
    rw [if_neg h2]
    by_cases h3 : (ch == '/' && rest.head? == some '/') = true
    · rw [if_pos h3]
      have hch : ch = '/' := by
        simp only [Bool.and_eq_true, beq_iff_eq] at h3
        exact h3.1
      exact ⟨List.takeWhile_append_dropWhile _ _,
        by simp [List.takeWhile_cons, hch], by simp⟩
    rw [if_neg h3]
    by_cases h4 : (ch == '/' && rest.head? == some '*') = true
    · rw [if_pos h4]
      have hp : ch = '/' ∧ rest.head? = some '*' := by simpa using h4
      rcases rest with _ | ⟨b, t⟩
      · exact absurd hp.2 (by simp)
      · have hb : b = '*' := by simpa using hp.2
        subst hb
        refine ⟨?_, by simp, by simp⟩
        simpa [hp.1] using
          congrArg (fun x => '/' :: '*' :: x) (scanBlockComment_append t l (c + 2))
    rw [if_neg h4]
    by_cases h5 : (ch == '`') = true
    · rw [if_pos h5]
      refine ⟨?_, by simp, by simp⟩
      simpa using congrArg (fun x => ch :: x) (scanTemplate_append rest 0 l (c + 1))
    rw [if_neg h5]
    by_cases h6 : (ch == '"' || ch == '\'') = true
    · rw [if_pos h6]
      refine ⟨?_, by simp, by simp⟩
      simpa using congrArg (fun x => ch :: x) (scanString_append ch rest l (c + 1))
    rw [if_neg h6]
    by_cases h7 : (ch.isDigit || (ch == '.' && (rest.head?.map Char.isDigit).getD false)) = true
    · rw [if_pos h7]
      have hcond : ch.isDigit = true ∨ ch = '.' := by
        rcases Bool.or_eq_true_iff.mp h7 with hx | hx
        · exact Or.inl hx
        · simp only [Bool.and_eq_true, beq_iff_eq] at hx
          exact Or.inr hx.1
      exact ⟨scanNumber_append _, scanNumber_ne_nil ch rest hcond, by simp⟩
    rw [if_neg h7]
    by_cases h8 : identStart ch = true
    · rw [if_pos h8]
      exact ⟨List.takeWhile_append_dropWhile _ _,
        by simp [List.takeWhile_cons, identStart_cont ch h8], by simp⟩
    rw [if_neg h8]
    by_cases h9 : (ch == '/' && isRegexContext ls) = true
    · rw [if_pos h9]
      have hch : ch = '/' := by
        simp only [Bool.and_eq_true, beq_iff_eq] at h9
        exact h9.1
      subst hch
      refine ⟨?_, by simp, by simp⟩
      have hb := scanRegexBody_append rest false
      have hf := List.takeWhile_append_dropWhile
        (p := isRegexFlag) (l := (scanRegexBody rest false).2)
      show ('/' :: (scanRegexBody rest false).1
          ++ (scanRegexBody rest false).2.takeWhile isRegexFlag)
          ++ (scanRegexBody rest false).2.dropWhile isRegexFlag = '/' :: rest
      rw [List.cons_append, List.cons_append, List.append_assoc, hf, hb]
    rw [if_neg h9]
    cases hfind : OPERATORS.find? (fun op => op.data.isPrefixOf (ch :: rest)) with
    | some op =>
      have hpre := List.find?_some hfind
      obtain ⟨t, ht⟩ := List.isPrefixOf_iff_prefix.mp hpre
      refine ⟨?_, OPERATORS_data_ne_nil op (List.mem_of_find?_eq_some hfind), by simp⟩
      show op.data ++ (ch :: rest).drop op.length = ch :: rest
      rw [← ht, show String.length op = op.data.length from rfl, List.drop_left]
    | none =>
      by_cases h10 : PUNCTUATION.contains ch = true
      · rw [if_pos h10]
        exact ⟨rfl, by simp, by simp⟩
      · rw [if_neg h10]
        exact ⟨rfl, by simp, by simp⟩

/-- One tokenizer step on nonempty input strictly shrinks the input. -/
theorem scanToken_progress (cs : List Char) (l c : Nat) (ls : Option Token) (h : cs ≠ []) :
    (scanToken cs l c ls).rest.length < cs.length := by
  obtain ⟨happ, hne, -⟩ := scanToken_spec cs l c ls h
  have hlen := congrArg List.length happ
  simp only [List.length_append] at hlen
  have hco : 0 < (scanToken cs l c ls).co.length := List.length_pos.mpr hne
  omega

/-- Any fuel at least the input length gives the same token list as fuel
exactly the input length: the `tokenize` loop never runs out of fuel. -/
theorem tokLoop_fuel (n : Nat) : ∀ (cs : List Char), cs.length ≤ n →
    ∀ (f : Nat), cs.length ≤ f → ∀ (l c : Nat) (ls : Option Token),
    tokLoop f cs l c ls = tokLoop cs.length cs l c ls := by
  induction n with
  | zero =>
    intro cs hcs f _ l c ls
    have : cs = [] := List.length_eq_zero.mp (Nat.le_zero.mp hcs)
    subst this
    cases f <;> rfl
  | succ n ih =>
    intro cs hcs f hf l c ls
    match cs, f with
    | [], f => cases f <;> rfl
    | ch :: rest, 0 => simp at hf
    | ch :: rest, f + 1 =>
      have hprog := scanToken_progress (ch :: rest) l c ls (by simp)
      have h1 : (scanToken (ch :: rest) l c ls).rest.length ≤ n := by
        simp only [List.length_cons] at hcs hprog; omega
      have h2 : (scanToken (ch :: rest) l c ls).rest.length ≤ f := by
        simp only [List.length_cons] at hf hprog; omega
      have h3 : (scanToken (ch :: rest) l c ls).rest.length ≤ rest.length := by
        simp only [List.length_cons] at hprog; omega
      show tokLoop (f + 1) (ch :: rest) l c ls = tokLoop (rest.length + 1) (ch :: rest) l c ls
      simp only [tokLoop]
      cases hk : (scanToken (ch :: rest) l c ls).kind <;> simp only [hk] <;>
        rw [ih _ h1 f h2, ih _ h1 rest.length h3]

/-- The reconstruction invariant of claim C8: `WsInterleaved cs vs` holds
when `cs` consists of the strings `vs` in order, with only
tokenizer-whitespace characters interleaved before, between and after
them. -/
inductive WsInterleaved : List Char → List String → Prop
  | nil : WsInterleaved [] []
  | ws {c : Char} {cs : List Char} {vs : List String} :
      isWsAll c = true → WsInterleaved cs vs → WsInterleaved (c :: cs) vs
  | tok {cs : List Char} {vs : List String} (v : String) :
      WsInterleaved cs vs → WsInterleaved (v.data ++ cs) (v :: vs)

theorem wsInterleaved_prepend (pre cs : List Char) (vs : List String)
    (h : ∀ a ∈ pre, isWsAll a = true) (h2 : WsInterleaved cs vs) :
    WsInterleaved (pre ++ cs) vs := by
  induction pre with
  | nil => simpa using h2
  | cons a t iht =>
    exact WsInterleaved.ws (h a (by simp)) (iht (fun b hb => h b (by simp [hb])))

theorem tokLoop_wsInterleaved (n : Nat) : ∀ (cs : List Char), cs.length ≤ n →
    ∀ (f : Nat), cs.length ≤ f → ∀ (l c : Nat) (ls : Option Token),
    WsInterleaved cs ((tokLoop f cs l c ls).map Token.value) := by
  induction n with
  | zero =>
    intro cs hcs f _ l c ls
    have : cs = [] := List.length_eq_zero.mp (Nat.le_zero.mp hcs)
    subst this
    cases f <;> exact WsInterleaved.nil
  | succ n ih =>
    intro cs hcs f hf l c ls
    match cs, f with
    | [], f => cases f <;> exact WsInterleaved.nil
    | ch :: rest, 0 => simp at hf
    | ch :: rest, f + 1 =>
      obtain ⟨happ, hne, hws⟩ := scanToken_spec (ch :: rest) l c ls (by simp)
      have hprog := scanToken_progress (ch :: rest) l c ls (by simp)
      have h1 : (scanToken (ch :: rest) l c ls).rest.length ≤ n := by
        simp only [List.length_cons] at hcs hprog; omega
      have h2 : (scanToken (ch :: rest) l c ls).rest.length ≤ f := by
        simp only [List.length_cons] at hf hprog; omega
      simp only [tokLoop]
      cases hk : (scanToken (ch :: rest) l c ls).kind with
      | none =>
        simp only [hk]
        have hpre := wsInterleaved_prepend (scanToken (ch :: rest) l c ls).co
          (scanToken (ch :: rest) l c ls).rest _ (hws hk)
          (ih _ h1 f h2 (scanToken (ch :: rest) l c ls).line
            (scanToken (ch :: rest) l c ls).col ls)
        rw [happ] at hpre
        exact hpre
      | some k =>
        simp only [hk, List.map_cons]
        have htok := WsInterleaved.tok (String.mk (scanToken (ch :: rest) l c ls).co)
          (ih _ h1 f h2 (scanToken (ch :: rest) l c ls).line
            (scanToken (ch :: rest) l c ls).col
            (if k == "comment" then ls
             else some ⟨k, String.mk (scanToken (ch :: rest) l c ls).co, l, c⟩))
        rw [show (String.mk (scanToken (ch :: rest) l c ls).co).data
            = (scanToken (ch :: rest) l c ls).co from rfl, happ] at htok
        exact htok

/-! ## DFS termination (claim C9) -/

/-- Every node occurrence in the graph: its keys and all neighbours. -/
def graphNodes (g : Graph) : List String := g.flatMap (fun p => p.1 :: p.2)

theorem mem_graphNodes_of_neighbor (g : Graph) (node x : String)
    (hx : x ∈ mapGetD g node) : x ∈ graphNodes g := by
  unfold mapGetD at hx
  cases hfind : g.find? (fun p => p.1 == node) with
  | none => rw [hfind] at hx; simp at hx
  | some p =>
    rw [hfind] at hx
    exact List.mem_flatMap.mpr ⟨p, List.mem_of_find?_eq_some hfind, by simp [hx]⟩

theorem mem_graphNodes_of_key (g : Graph) (k : String)
    (hk : k ∈ g.map (·.1)) : k ∈ graphNodes g := by
  obtain ⟨p, hp, hk1⟩ := List.mem_map.mp hk
  exact List.mem_flatMap.mpr ⟨p, hp, by simp [hk1]⟩

/-- The graph's distinct nodes not yet on the visited list. -/
def unvisitedCount (g : Graph) (visited : List String) : Nat :=
  ((graphNodes g).dedup.filter (fun x => !(visited.contains x))).length

theorem length_filter_mono {α : Type} (p q : α → Bool) (l : List α)
    (himp : ∀ x, p x = true → q x = true) :
    (l.filter p).length ≤ (l.filter q).length := by
  induction l with
  | nil => simp
  | cons a t iht =>
    by_cases hpa : p a = true
    · simp only [List.filter_cons, hpa, himp a hpa, if_true, List.length_cons]
      omega
    · simp only [List.filter_cons, hpa, Bool.false_eq_true, if_false]
      by_cases hqa : q a = true
      · simp only [hqa, if_true, List.length_cons]
        omega
      · simp only [hqa, Bool.false_eq_true, if_false]
        exact iht

theorem length_filter_lt {α : Type} (p q : α → Bool) (l : List α) (a : α)
    (himp : ∀ x, p x = true → q x = true) (ha : a ∈ l) (hqa : q a = true)
    (hpa : p a = false) :
    (l.filter p).length < (l.filter q).length := by
  induction l with
  | nil => cases ha
  | cons b t iht =>
    rcases List.mem_cons.mp ha with hb | hat
    · subst hb
      simp only [List.filter_cons, hpa, hqa, Bool.false_eq_true, if_false, if_true,
        List.length_cons]
      exact Nat.lt_succ_of_le (length_filter_mono p q t himp)
    · by_cases hpb : p b = true
      · simp only [List.filter_cons, hpb, himp b hpb, if_true, List.length_cons]
        exact Nat.succ_lt_succ (iht hat)
      · simp only [List.filter_cons, hpb, Bool.false_eq_true, if_false]
        by_cases hqb : q b = true
        · simp only [hqb, if_true, List.length_cons]
          exact Nat.lt_succ_of_lt (iht hat)
        · simp only [hqb, Bool.false_eq_true, if_false]
          exact iht hat

theorem unvisitedCount_append_le (g : Graph) (v : List String) (node : String) :
    unvisitedCount g (v ++ [node]) ≤ unvisitedCount g v := by
  apply length_filter_mono
  intro x hx
  simp only [Bool.not_eq_true', List.contains_eq_any_beq] at hx ⊢
  simp only [List.any_append, Bool.or_eq_false_iff] at hx
  exact hx.1

theorem unvisitedCount_append_lt (g : Graph) (v : List String) (node : String)
    (hn : node ∈ graphNodes g) (hnv : v.contains node = false) :
    unvisitedCount g (v ++ [node]) < unvisitedCount g v := by
  apply length_filter_lt _ _ _ node
  · intro x hx
    simp only [Bool.not_eq_true', List.contains_eq_any_beq] at hx ⊢
    simp only [List.any_append, Bool.or_eq_false_iff] at hx
    exact hx.1
  · exact List.mem_dedup.mpr hn
  · simp only [Bool.not_eq_true', hnv]
  · simp

/-- Threading the fuel bound through the sequential neighbour fold. -/
theorem dfsFold_suff (g : Graph) (fuel : Nat)
    (IH : ∀ (node : String) (path : List String) (st : DfsSt),
      node ∈ graphNodes g → unvisitedCount g st.visited < fuel →
      ∃ st', dfsNode g fuel node path st = some st' ∧
        unvisitedCount g st'.visited ≤ unvisitedCount g st.visited) :
    ∀ (ns : List String) (path : List String) (st : DfsSt),
      (∀ n ∈ ns, n ∈ graphNodes g) → unvisitedCount g st.visited < fuel →
      ∃ st', ns.foldl (fun ost n => ost.bind (fun stx => dfsNode g fuel n path stx))
          (some st) = some st' ∧
        unvisitedCount g st'.visited ≤ unvisitedCount g st.visited := by
  intro ns
  induction ns with
  | nil => intro path st _ _; exact ⟨st, rfl, le_refl _⟩
  | cons n ns ihn =>
    intro path st hmem hcount
    obtain ⟨st1, hst1, hle1⟩ := IH n path st (hmem n (by simp)) hcount
    obtain ⟨st2, hst2, hle2⟩ := ihn path st1 (fun m hm => hmem m (by simp [hm]))
      (lt_of_le_of_lt hle1 hcount)
    refine ⟨st2, ?_, le_trans hle2 hle1⟩
    simpa [hst1] using hst2

/-- A `dfs` call with fuel above the unvisited count succeeds, and never
shrinks the visited set's coverage. -/
theorem dfsNode_suff (g : Graph) : ∀ (fuel : Nat) (node : String) (path : List String)
    (st : DfsSt), node ∈ graphNodes g → unvisitedCount g st.visited < fuel →
    ∃ st', dfsNode g fuel node path st = some st' ∧
      unvisitedCount g st'.visited ≤ unvisitedCount g st.visited := by
  intro fuel
  induction fuel with
  | zero => intro node path st _ h; exact absurd h (Nat.not_lt_zero _)
  | succ fuel ihf =>
    intro node path st hnode hcount
    by_cases hstk : st.inStack.contains node = true
    · refine ⟨{ st with cycles := st.cycles
          ++ [path.drop (path.indexOf node) ++ [node]] }, ?_, le_refl _⟩
      simp only [dfsNode]
      rw [if_pos hstk]
    · by_cases hvis : st.visited.contains node = true
      · refine ⟨st, ?_, le_refl _⟩
        simp only [dfsNode]
        rw [if_neg hstk, if_pos hvis]
      · have hlt : unvisitedCount g (st.visited ++ [node]) < unvisitedCount g st.visited :=
          unvisitedCount_append_lt g st.visited node hnode (by simpa using hvis)
        have hcount2 : unvisitedCount g (st.visited ++ [node]) < fuel := by omega
        obtain ⟨st2, hst2, hle2⟩ := dfsFold_suff g fuel ihf (mapGetD g node)
          (path ++ [node]) ⟨st.cycles, st.visited ++ [node], st.inStack ++ [node]⟩
          (fun m hm => mem_graphNodes_of_neighbor g node m hm) hcount2
        refine ⟨⟨st2.cycles, st2.visited, st2.inStack.erase node⟩, ?_, ?_⟩
        · simp only [dfsNode]
          rw [if_neg hstk, if_neg hvis, hst2]
        · exact le_trans hle2 (le_of_lt hlt)

theorem unvisitedCount_lt_dfsFuel (g : Graph) (visited : List String) :
    unvisitedCount g visited < dfsFuel g := by
  have h1 : unvisitedCount g visited ≤ (graphNodes g).dedup.length :=
    List.length_filter_le _ _
  have h2 : (graphNodes g).dedup.length ≤ (graphNodes g).length :=
    (List.dedup_sublist _).length_le
  have h3 : (graphNodes g).length = (g.map (fun p => p.2.length + 1)).sum := by
    unfold graphNodes
    rw [List.length_flatMap]
    exact congrArg List.sum (List.map_congr_left (fun p _ => by simp [Function.comp]))
  unfold dfsFuel
  omega

theorem dccGo_suff (g : Graph) : ∀ (ks : List String) (st : DfsSt),
    (∀ k ∈ ks, k ∈ graphNodes g) →
    ∃ st', dccGo g ks st = some st' := by
  intro ks
  induction ks with
  | nil => intro st _; exact ⟨st, rfl⟩
  | cons k ks ihk =>
    intro st hmem
    by_cases hv : st.visited.contains k = true
    · obtain ⟨st', hst'⟩ := ihk st (fun m hm => hmem m (by simp [hm]))
      refine ⟨st', ?_⟩
      simp only [dccGo]
      rw [if_pos hv]
      exact hst'
    · obtain ⟨st1, hst1, -⟩ := dfsNode_suff g (dfsFuel g) k [] st (hmem k (by simp))
        (unvisitedCount_lt_dfsFuel g st.visited)
      obtain ⟨st2, hst2⟩ := ihk st1 (fun m hm => hmem m (by simp [hm]))
      refine ⟨st2, ?_⟩
      simp only [dccGo]
      rw [if_neg hv, hst1]
      exact hst2

/-- The driver's fuel always suffices: the optional form of
`detectCircularDeps` never returns `none`. -/
theorem detectCircularDepsOpt_isSome (g : Graph) :
    (detectCircularDepsOpt g).isSome = true := by
  obtain ⟨st', hst'⟩ := dccGo_suff g (g.map (·.1)) ⟨[], [], []⟩
    (fun k hk => mem_graphNodes_of_key g k hk)
  simp [detectCircularDepsOpt, hst']


/-! ## Dead-code loop lemmas (claims C3 and C4) -/

theorem jumpCountFrom_anti (sig : List Token) (i j : Nat) (h : i ≤ j) :
    jumpCountFrom sig j ≤ jumpCountFrom sig i := by
  unfold jumpCountFrom
  have hd : sig.drop j = (sig.drop i).drop (j - i) := by
    rw [List.drop_drop]
    congr 1
    omega
  rw [hd]
  exact ((List.drop_sublist _ _).filter _).length_le

theorem jumpCountFrom_succ (sig : List Token) (i : Nat) (t : Token)
    (ht : sig[i]? = some t) (hj : isJumpTok t = true) :
    jumpCountFrom sig i = jumpCountFrom sig (i + 1) + 1 := by
  have hlt : i < sig.length := by
    by_contra hge
    rw [List.getElem?_eq_none (by omega)] at ht
    cases ht
  have hget : sig[i] = t := by
    have := List.getElem?_eq_getElem hlt
    rw [this] at ht
    exact Option.some.inj ht
  unfold jumpCountFrom
  rw [List.drop_eq_getElem_cons hlt, hget, List.filter_cons_of_pos hj]
  rfl

theorem stmtEndGo_ge (sig : List Token) : ∀ (fuel j nest : Nat),
    j ≤ stmtEndGo sig fuel j nest := by
  intro fuel
  induction fuel with
  | zero => intro j nest; simp [stmtEndGo]
  | succ fuel ihf =>
    intro j nest
    simp only [stmtEndGo]
    repeat' split
    all_goals first
      | omega
      | exact Nat.le_of_succ_le (ihf _ _)

theorem stmtEnd_ge (sig : List Token) (i : Nat) : i + 1 ≤ stmtEnd sig i :=
  stmtEndGo_ge sig sig.length (i + 1) 0

/-- Claim C3's amended bound: the main loop emits at most one issue per
jump-keyword token at or after the current index. -/
theorem ddGo_le_jumpCount (sig : List Token) (depthB : List Nat) (lines : List String) :
    ∀ (fuel i : Nat), (ddGo sig depthB lines fuel i).length ≤ jumpCountFrom sig i := by
  intro fuel
  induction fuel with
  | zero => intro i; simp [ddGo]
  | succ fuel ihf =>
    intro i
    simp only [ddGo]
    split
    · simp
    · next tok hti =>
      split
      · exact le_trans (ihf (i + 1)) (jumpCountFrom_anti sig i (i + 1) (by omega))
      · next hj =>
        have hjump : isJumpTok tok = true := by
          simpa [isJumpTok] using hj
        have hsucc := jumpCountFrom_succ sig i tok hti hjump
        split
        · have := le_trans (ihf (i + 1)) (jumpCountFrom_anti sig i (i + 1) (by omega))
          omega
        · split
          · next iss heq =>
            simp only [List.length_cons]
            have h1 := ihf (stmtEnd sig i)
            have h2 := jumpCountFrom_anti sig (i + 1) (stmtEnd sig i) (stmtEnd_ge sig i)
            omega
          · have := le_trans (ihf (i + 1)) (jumpCountFrom_anti sig i (i + 1) (by omega))
            omega

/-- Claim C4's amended provenance: every issue detectDeadCode's loop
reports was emitted at some jump-keyword token that the backward scan did
not classify as conditional. -/
theorem ddGo_provenance (sig : List Token) (depthB : List Nat) (lines : List String) :
    ∀ (fuel i : Nat), ∀ iss ∈ ddGo sig depthB lines fuel i,
    ∃ k t, sig[k]? = some t ∧ t.type = "keyword" ∧ t.value ∈ JUMP_KEYWORDS ∧
      isInsideBracelessControl sig depthB k = false ∧
      emitAt sig depthB lines k t = some iss := by
  intro fuel
  induction fuel with
  | zero => intro i iss hiss; simp [ddGo] at hiss
  | succ fuel ihf =>
    intro i iss hiss
    simp only [ddGo] at hiss
    split at hiss
    · simp at hiss
    · next tok hti =>
      split at hiss
      · exact ihf (i + 1) iss hiss
      · next hj =>
        have hjump : tok.type = "keyword" ∧ tok.value ∈ JUMP_KEYWORDS := by
          simpa [List.contains_eq_any_beq, List.any_eq_true] using hj
        split at hiss
        · exact ihf (i + 1) iss hiss
        · next hib =>
          split at hiss
          · next iss0 heq =>
            rcases List.mem_cons.mp hiss with hhd | htl
            · subst hhd
              exact ⟨i, tok, hti, hjump.1, hjump.2, by simpa using hib, heq⟩
            · exact ihf (stmtEnd sig i) iss htl
          · exact ihf (i + 1) iss hiss

/-! ## Import-kind lemmas (claim C6) -/

theorem fromRecord_kinds (sig : List Token) (j : Nat) (kind : String) (line : Nat) :
    ∀ r ∈ fromRecord sig j kind line, r.kind = kind := by
  intro r hr
  unfold fromRecord at hr
  repeat' split at hr
  all_goals simp_all

theorem piGo_kinds (sig : List Token) : ∀ (fuel i : Nat),
    ∀ r ∈ piGo sig fuel i,
      r.kind ∈ (["import", "export-from", "dynamic-import", "require"] : List String) := by
  intro fuel
  induction fuel with
  | zero => intro i r hr; simp [piGo] at hr
  | succ fuel ihf =>
    intro i r hr
    simp only [piGo] at hr
    repeat' split at hr
    all_goals
      first
      | (simp at hr; done)
      | exact ihf _ r hr
      | (rcases List.mem_append.mp hr with h | h
         · first
           | (have hk := fromRecord_kinds _ _ _ _ r h
              rw [hk]; decide)
           | (rw [List.mem_singleton] at h; subst h; simp)
           | (simp at h; done)
         · exact ihf _ r h)

/-! ## The claim theorems -/

/-- Claim C1: corrected.  Nested functions are discovered and scored
independently, but the outer function's walk spans its whole body
including the nested function's body, so the outer score also counts the
nested function's branch indicators: here `outer` has one `if` of its own
and `inner` one more, and `outer` scores 3, not 2. -/
theorem claim_C1_outer_walk_includes_nested :
    (analyzeComplexity (tokenize
        "function outer() \x7b if (a) \x7b \x7d function inner() \x7b if (b) \x7b \x7d \x7d \x7d")).map
      (fun r => (r.name, r.line, r.complexity)) = [("outer", 1, 3), ("inner", 1, 2)] := by
  rfl

/-- Claim C1, counterexample to the original wording: `outer` contains no
branch indicator outside `inner`'s body, so under the claim its score
would be 1, yet the analyzer reports 2 because the walk counts the `if`
lying inside `inner`. -/
theorem claim_C1_counterexample :
    (analyzeComplexity (tokenize
        "function outer() \x7b function inner() \x7b if (x) \x7b \x7d \x7d \x7d")).map
      (fun r => (r.name, r.complexity)) = [("outer", 2), ("inner", 2)] := by
  rfl

/-- Claim C2: corrected.  The tokenizer's regex test is a blacklist, not
the claim's whitelist: a `/` starts a regex unless the last significant
token is a literal (number, string, template, regex), an identifier, one
of the value keywords `this`, `true`, `false`, `null`, `undefined`, or a
closing `)`, `]`, `\x7d`; `amendedC2RegexCond` restates exactly that and
agrees with `isRegexContext` on every token. -/
theorem claim_C2_regex_context_characterization :
    ∀ t : Option Token, isRegexContext t = amendedC2RegexCond t := by
  intro t
  cases t with
  | none => rfl
  | some t =>
    simp only [isRegexContext, amendedC2RegexCond]
    by_cases h1 : (t.type == "number" || t.type == "string" || t.type == "template"
        || t.type == "regex") = true
    · rw [if_pos h1]; simp [h1]
    · rw [if_neg h1]
      by_cases h2 : (t.type == "identifier") = true
      · rw [if_pos h2]; simp [h2]
      · rw [if_neg h2]
        by_cases h3 : (t.type == "keyword" && (t.value == "this" || t.value == "true"
            || t.value == "false" || t.value == "null" || t.value == "undefined")) = true
        · rw [if_pos h3]; simp [h3]
        · rw [if_neg h3]
          by_cases h4 : (t.type == "punctuation" && (t.value == ")" || t.value == "]"
              || t.value == "\x7d")) = true
          · rw [if_pos h4]; simp [h4]
          · rw [if_neg h4]
            simp only [Bool.not_eq_true] at h1 h2 h3 h4
            simp [h1, h2, h3, h4]

/-- Claim C2, counterexample: after the punctuation token `;` — neither an
operator, an opening bracket, nor a keyword — the claim predicts a
division operator, but the tokenizer emits a regex token. -/
theorem claim_C2_counterexample :
    (tokenize ";/a/").map (fun t => (t.type, t.value))
      = [("punctuation", ";"), ("regex", "/a/")] ∧
    claimC2RegexCond (some ⟨"punctuation", ";", 1, 1⟩) = false := ⟨rfl, rfl⟩

/-- Claim C3: corrected.  The scan resumes right after the reported
statement, which bounds the issue count by the number of jump keywords
(never one per dead statement), and a dead region of plain statements
yields exactly one finding; but when the dead region itself starts with
further jump statements each of them is reported in turn, so a region is
not always a single finding. -/
theorem claim_C3_one_issue_per_jump :
    (∀ (tokens : List Token) (lines : List String),
      (detectDeadCode tokens lines).length ≤ jumpCountFrom (sigTokens tokens) 0) ∧
    (detectDeadCode (tokenize "function f() \x7b return 1; const x = 2; const y = 3; \x7d")
        ["function f() \x7b return 1; const x = 2; const y = 3; \x7d"]).map
      (fun i => (i.line, i.col)) = [(1, 26)] := by
  constructor
  · intro tokens lines
    exact ddGo_le_jumpCount (sigTokens tokens) (depthBeforeList (sigTokens tokens) 0)
      lines (sigTokens tokens).length 0
  · rfl

/-- Claim C3, counterexample: one dead region (everything after the first
`return`) produces two findings, because the unreachable `return 2`
statement is itself reported as a jump with dead code after it. -/
theorem claim_C3_counterexample :
    (detectDeadCode (tokenize "function f() \x7b return 1; return 2; const x = 3; \x7d")
        ["function f() \x7b return 1; return 2; const x = 3; \x7d"]).map
      (fun i => (i.line, i.col)) = [(1, 26), (1, 36)] := by
  rfl

/-- Claim C4: corrected.  Every reported issue does come from a jump
keyword that `isInsideBracelessControl` classified as unconditional, so
the braceless guard is consulted on every emission; but that guard does
not recognise `do`, so a jump that is the body of a braceless `do` is
still reported (see the counterexample). -/
theorem claim_C4_issue_provenance :
    ∀ (tokens : List Token) (lines : List String),
    ∀ iss ∈ detectDeadCode tokens lines,
    ∃ k t, (sigTokens tokens)[k]? = some t ∧ t.type = "keyword" ∧
      t.value ∈ JUMP_KEYWORDS ∧
      isInsideBracelessControl (sigTokens tokens)
        (depthBeforeList (sigTokens tokens) 0) k = false ∧
      emitAt (sigTokens tokens) (depthBeforeList (sigTokens tokens) 0)
        lines k t = some iss := by
  intro tokens lines iss hiss
  exact ddGo_provenance (sigTokens tokens) (depthBeforeList (sigTokens tokens) 0)
    lines (sigTokens tokens).length 0 iss hiss

theorem claim_C4_witness :
    ∃ iss ∈ detectDeadCode (tokenize "do return; while (x); const y = 1;")
        ["do return; while (x); const y = 1;"],
    ∃ k t, (sigTokens (tokenize "do return; while (x); const y = 1;"))[k]? = some t ∧
      t.type = "keyword" ∧ t.value ∈ JUMP_KEYWORDS ∧
      isInsideBracelessControl (sigTokens (tokenize "do return; while (x); const y = 1;"))
        (depthBeforeList (sigTokens (tokenize "do return; while (x); const y = 1;")) 0) k
        = false ∧
      emitAt (sigTokens (tokenize "do return; while (x); const y = 1;"))
        (depthBeforeList (sigTokens (tokenize "do return; while (x); const y = 1;")) 0)
        ["do return; while (x); const y = 1;"] k t = some iss := by
  have h0 : detectDeadCode (tokenize "do return; while (x); const y = 1;")
      ["do return; while (x); const y = 1;"] ≠ [] := by
    intro h
    have hl := congrArg List.length h
    rw [show (detectDeadCode (tokenize "do return; while (x); const y = 1;")
        ["do return; while (x); const y = 1;"]).length = 1 from rfl] at hl
    simp at hl
  exact ⟨_, List.head_mem h0,
    claim_C4_issue_provenance (tokenize "do return; while (x); const y = 1;")
      ["do return; while (x); const y = 1;"] _ (List.head_mem h0)⟩

/-- Claim C4, counterexample: `return` is the body of a braceless `do`,
yet the statement after it is reported as unreachable — the backward scan
recognises `if`, `else`, `for`, `while`, but not `do`. -/
theorem claim_C4_counterexample :
    (detectDeadCode (tokenize "do return; while (x); const y = 1;")
        ["do return; while (x); const y = 1;"]).map
      (fun i => (i.line, i.col)) = [(1, 12)] := by
  rfl

/-- Claim C5: code bug.  The spec promises the assignment target `myFn` as
the inferred name of a block-bodied arrow function, but the backward name
scan stops at the parameter list's closing `)` before ever reaching the
`=` or the identifier, so the placeholder `(arrow)` is reported. -/
theorem claim_C5_arrow_name_lost :
    (analyzeComplexity (tokenize "const myFn = (x) => \x7b return x * 2; \x7d;")).map
      (fun r => (r.name, r.line, r.complexity)) = [("(arrow)", 1, 1)] := by
  rfl

/-- Claim C6: corrected.  Every import record's kind is one of exactly
`import`, `export-from`, `dynamic-import`, `require` — two of the four
kind strings differ from the claimed `static-import` and
`module-require`. -/
theorem claim_C6_import_kinds :
    ∀ (tokens : List Token) (filePath : String),
    ∀ r ∈ (parseImports tokens filePath).imports,
      r.kind ∈ (["import", "export-from", "dynamic-import", "require"] : List String) := by
  intro tokens filePath r hr
  exact piGo_kinds (tokens.filter (fun t => t.type != "comment")) _ 0 r hr

theorem claim_C6_witness :
    (⟨"a.js", "import", 1⟩ : ImportRecord).kind
      ∈ (["import", "export-from", "dynamic-import", "require"] : List String) :=
  claim_C6_import_kinds (tokenize "import x from 'a.js';") "f.js"
    ⟨"a.js", "import", 1⟩ (by decide)

/-- Claim C6, counterexample: a plain static import is recorded with kind
`import`, which is not in the claimed set \x7bstatic-import, export-from,
dynamic-import, module-require\x7d. -/
theorem claim_C6_counterexample :
    ((parseImports (tokenize "import x from 'a.js';") "f.js").imports.map
      (fun r => r.kind)) = ["import"] ∧
    ("import" : String)
      ∉ (["static-import", "export-from", "dynamic-import", "module-require"] :
          List String) := ⟨rfl, by decide⟩

/-- Claim C7: confirmed.  The default-parameter `\x7b\x7d` is not taken
as the function body: `f` is reported once, at line 1, with score 1. -/
theorem claim_C7_default_param_body :
    (analyzeComplexity (tokenize "function f(opts = \x7b\x7d) \x7b return 1; \x7d")).map
      (fun r => (r.name, r.line, r.complexity)) = [("f", 1, 1)] := by
  rfl

/-- Claim C8: confirmed.  For every input string, the token texts in
emission order interleaved only with discarded whitespace reconstruct the
input exactly. -/
theorem claim_C8_reconstruction :
    ∀ s : String, WsInterleaved s.data ((tokenize s).map Token.value) := by
  intro s
  exact tokLoop_wsInterleaved s.data.length s.data (le_refl _) s.data.length
    (le_refl _) 1 1 none

/-- Claim C9: confirmed.  The tokenizer's scan loop always terminates
within its input-length budget (any fuel at least the input length gives
the same tokens, so the loop never runs dry), and the cycle search's DFS
completes within its fuel on every finite graph, so `detectCircularDeps`
always returns its DFS result rather than a fallback. -/
theorem claim_C9_totality :
    (∀ (f : Nat) (s : String), s.data.length ≤ f →
        tokLoop f s.data 1 1 none = tokenize s) ∧
    (∀ g : Graph, (detectCircularDepsOpt g).isSome = true) ∧
    (∀ g : Graph, detectCircularDeps g = (detectCircularDepsOpt g).getD []) := by
  refine ⟨?_, detectCircularDepsOpt_isSome, fun g => rfl⟩
  intro f s hf
  exact tokLoop_fuel s.data.length s.data (le_refl _) f hf 1 1 none

theorem claim_C9_witness :
    (tokLoop 7 "a b".data 1 1 none = tokenize "a b") ∧
    (detectCircularDepsOpt [("a.js", ["a.js"])]).isSome = true :=
  ⟨claim_C9_totality.1 7 "a b" (by decide),
   claim_C9_totality.2.1 [("a.js", ["a.js"])]⟩

/-- Claim C10: confirmed.  Setting one skip flag empties only that flag's
own result field (`complexity`, `deadCode`, `style` to `[]`;
`dependencies` to `none`) and the summary counts derived from it; the
file, the tokens, the other analysis fields and the summary counts not
derived from the skipped analysis are identical to the unflagged call. -/
theorem claim_C10_skip_flag_frame :
    ∀ (s file : String) (rules : StyleRules) (b1 b2 b3 b4 : Bool)
      (ofs : List FileTokens),
    ((analyze s ⟨file, rules, true, b2, b3, b4, ofs⟩).file
        = (analyze s ⟨file, rules, false, b2, b3, b4, ofs⟩).file ∧
      (analyze s ⟨file, rules, true, b2, b3, b4, ofs⟩).tokens
        = (analyze s ⟨file, rules, false, b2, b3, b4, ofs⟩).tokens ∧
      (analyze s ⟨file, rules, true, b2, b3, b4, ofs⟩).deadCode
        = (analyze s ⟨file, rules, false, b2, b3, b4, ofs⟩).deadCode ∧
      (analyze s ⟨file, rules, true, b2, b3, b4, ofs⟩).style
        = (analyze s ⟨file, rules, false, b2, b3, b4, ofs⟩).style ∧
      (analyze s ⟨file, rules, true, b2, b3, b4, ofs⟩).dependencies
        = (analyze s ⟨file, rules, false, b2, b3, b4, ofs⟩).dependencies ∧
      (analyze s ⟨file, rules, true, b2, b3, b4, ofs⟩).complexity = [] ∧
      (analyze s ⟨file, rules, true, b2, b3, b4, ofs⟩).summary.totalTokens
        = (analyze s ⟨file, rules, false, b2, b3, b4, ofs⟩).summary.totalTokens ∧
      (analyze s ⟨file, rules, true, b2, b3, b4, ofs⟩).summary.deadCodeIssues
        = (analyze s ⟨file, rules, false, b2, b3, b4, ofs⟩).summary.deadCodeIssues ∧
      (analyze s ⟨file, rules, true, b2, b3, b4, ofs⟩).summary.styleIssues
        = (analyze s ⟨file, rules, false, b2, b3, b4, ofs⟩).summary.styleIssues ∧
      (analyze s ⟨file, rules, true, b2, b3, b4, ofs⟩).summary.circularDeps
        = (analyze s ⟨file, rules, false, b2, b3, b4, ofs⟩).summary.circularDeps ∧
      (analyze s ⟨file, rules, true, b2, b3, b4, ofs⟩).summary.totalIssues
        = (analyze s ⟨file, rules, false, b2, b3, b4, ofs⟩).summary.totalIssues) ∧
    ((analyze s ⟨file, rules, b1, true, b3, b4, ofs⟩).file
        = (analyze s ⟨file, rules, b1, false, b3, b4, ofs⟩).file ∧
      (analyze s ⟨file, rules, b1, true, b3, b4, ofs⟩).tokens
        = (analyze s ⟨file, rules, b1, false, b3, b4, ofs⟩).tokens ∧
      (analyze s ⟨file, rules, b1, true, b3, b4, ofs⟩).complexity
        = (analyze s ⟨file, rules, b1, false, b3, b4, ofs⟩).complexity ∧
      (analyze s ⟨file, rules, b1, true, b3, b4, ofs⟩).style
        = (analyze s ⟨file, rules, b1, false, b3, b4, ofs⟩).style ∧
      (analyze s ⟨file, rules, b1, true, b3, b4, ofs⟩).dependencies
        = (analyze s ⟨file, rules, b1, false, b3, b4, ofs⟩).dependencies ∧
      (analyze s ⟨file, rules, b1, true, b3, b4, ofs⟩).deadCode = [] ∧
      (analyze s ⟨file, rules, b1, true, b3, b4, ofs⟩).summary.totalTokens
        = (analyze s ⟨file, rules, b1, false, b3, b4, ofs⟩).summary.totalTokens ∧
      (analyze s ⟨file, rules, b1, true, b3, b4, ofs⟩).summary.functions
        = (analyze s ⟨file, rules, b1, false, b3, b4, ofs⟩).summary.functions ∧
      (analyze s ⟨file, rules, b1, true, b3, b4, ofs⟩).summary.avgComplexity
        = (analyze s ⟨file, rules, b1, false, b3, b4, ofs⟩).summary.avgComplexity ∧
      (analyze s ⟨file, rules, b1, true, b3, b4, ofs⟩).summary.maxComplexity
        = (analyze s ⟨file, rules, b1, false, b3, b4, ofs⟩).summary.maxComplexity ∧
      (analyze s ⟨file, rules, b1, true, b3, b4, ofs⟩).summary.styleIssues
        = (analyze s ⟨file, rules, b1, false, b3, b4, ofs⟩).summary.styleIssues ∧
      (analyze s ⟨file, rules, b1, true, b3, b4, ofs⟩).summary.circularDeps
        = (analyze s ⟨file, rules, b1, false, b3, b4, ofs⟩).summary.circularDeps) ∧
    ((analyze s ⟨file, rules, b1, b2, true, b4, ofs⟩).file
        = (analyze s ⟨file, rules, b1, b2, false, b4, ofs⟩).file ∧
      (analyze s ⟨file, rules, b1, b2, true, b4, ofs⟩).tokens
        = (analyze s ⟨file, rules, b1, b2, false, b4, ofs⟩).tokens ∧
      (analyze s ⟨file, rules, b1, b2, true, b4, ofs⟩).complexity
        = (analyze s ⟨file, rules, b1, b2, false, b4, ofs⟩).complexity ∧
      (analyze s ⟨file, rules, b1, b2, true, b4, ofs⟩).deadCode
        = (analyze s ⟨file, rules, b1, b2, false, b4, ofs⟩).deadCode ∧
      (analyze s ⟨file, rules, b1, b2, true, b4, ofs⟩).dependencies
        = (analyze s ⟨file, rules, b1, b2, false, b4, ofs⟩).dependencies ∧
      (analyze s ⟨file, rules, b1, b2, true, b4, ofs⟩).style = [] ∧
      (analyze s ⟨file, rules, b1, b2, true, b4, ofs⟩).summary.totalTokens
        = (analyze s ⟨file, rules, b1, b2, false, b4, ofs⟩).summary.totalTokens ∧
      (analyze s ⟨file, rules, b1, b2, true, b4, ofs⟩).summary.functions
        = (analyze s ⟨file, rules, b1, b2, false, b4, ofs⟩).summary.functions ∧
      (analyze s ⟨file, rules, b1, b2, true, b4, ofs⟩).summary.avgComplexity
        = (analyze s ⟨file, rules, b1, b2, false, b4, ofs⟩).summary.avgComplexity ∧
      (analyze s ⟨file, rules, b1, b2, true, b4, ofs⟩).summary.maxComplexity
        = (analyze s ⟨file, rules, b1, b2, false, b4, ofs⟩).summary.maxComplexity ∧
      (analyze s ⟨file, rules, b1, b2, true, b4, ofs⟩).summary.deadCodeIssues
        = (analyze s ⟨file, rules, b1, b2, false, b4, ofs⟩).summary.deadCodeIssues ∧
      (analyze s ⟨file, rules, b1, b2, true, b4, ofs⟩).summary.circularDeps
        = (analyze s ⟨file, rules, b1, b2, false, b4, ofs⟩).summary.circularDeps) ∧
    ((analyze s ⟨file, rules, b1, b2, b3, true, ofs⟩).file
        = (analyze s ⟨file, rules, b1, b2, b3, false, ofs⟩).file ∧
      (analyze s ⟨file, rules, b1, b2, b3, true, ofs⟩).tokens
        = (analyze s ⟨file, rules, b1, b2, b3, false, ofs⟩).tokens ∧
      (analyze s ⟨file, rules, b1, b2, b3, true, ofs⟩).complexity
        = (analyze s ⟨file, rules, b1, b2, b3, false, ofs⟩).complexity ∧
      (analyze s ⟨file, rules, b1, b2, b3, true, ofs⟩).deadCode
        = (analyze s ⟨file, rules, b1, b2, b3, false, ofs⟩).deadCode ∧
      (analyze s ⟨file, rules, b1, b2, b3, true, ofs⟩).style
        = (analyze s ⟨file, rules, b1, b2, b3, false, ofs⟩).style ∧
      (analyze s ⟨file, rules, b1, b2, b3, true, ofs⟩).dependencies = none ∧
      (analyze s ⟨file, rules, b1, b2, b3, true, ofs⟩).summary.totalTokens
        = (analyze s ⟨file, rules, b1, b2, b3, false, ofs⟩).summary.totalTokens ∧
      (analyze s ⟨file, rules, b1, b2, b3, true, ofs⟩).summary.functions
        = (analyze s ⟨file, rules, b1, b2, b3, false, ofs⟩).summary.functions ∧
      (analyze s ⟨file, rules, b1, b2, b3, true, ofs⟩).summary.avgComplexity
        = (analyze s ⟨file, rules, b1, b2, b3, false, ofs⟩).summary.avgComplexity ∧
      (analyze s ⟨file, rules, b1, b2, b3, true, ofs⟩).summary.maxComplexity
        = (analyze s ⟨file, rules, b1, b2, b3, false, ofs⟩).summary.maxComplexity ∧
      (analyze s ⟨file, rules, b1, b2, b3, true, ofs⟩).summary.deadCodeIssues
        = (analyze s ⟨file, rules, b1, b2, b3, false, ofs⟩).summary.deadCodeIssues ∧
      (analyze s ⟨file, rules, b1, b2, b3, true, ofs⟩).summary.styleIssues
        = (analyze s ⟨file, rules, b1, b2, b3, false, ofs⟩).summary.styleIssues) := by
  intro s file rules b1 b2 b3 b4 ofs
  repeat' apply And.intro
  all_goals rfl

end CodeAnalysis
